import Mathlib

/-!
Shallow embedding of the KDPII NER Labeler backend (Django).
Definitions are translated from `ner_labeler/models.py`, `ner_labeler/views.py`
and `ner_labeler/serializers.py`; Python integers become `Int`, Python lists
become `List`, Python strings become `String`.
-/

namespace NER

/-- Annotation span data (models.py, `class Annotation`): `start`, `end`
(half-open character interval) and the JSON list of label values. -/
structure Ann where
  start : Int
  «end» : Int
  labels : List String
  deriving Repr, DecidableEq

/-- `Annotation.overlaps_with` (models.py line 432):
`return not (self.end <= other.start or self.start >= other.end)`. -/
def Ann.overlaps_with (self other : Ann) : Bool :=
  !(decide (self.«end» ≤ other.start) || decide (self.start ≥ other.«end»))

/-- `Annotation.contains` (models.py line 436):
`return self.start <= other.start and self.end >= other.end`. -/
def Ann.contains (self other : Ann) : Bool :=
  decide (self.start ≤ other.start) && decide (self.«end» ≥ other.«end»)

/-- Characterization of `overlaps_with`, shared by several proofs below. -/
lemma overlaps_with_iff (a b : Ann) :
    a.overlaps_with b = true ↔ a.start < b.«end» ∧ b.start < a.«end» := by
  simp only [Ann.overlaps_with, Bool.not_eq_true', Bool.or_eq_false_iff,
    decide_eq_false_iff_not, not_le, ge_iff_le]
  tauto

/-- C1: `overlaps_with a b = true` iff `a.start < b.end ∧ b.start < a.end`;
it is symmetric; reflexive on valid spans (`start < end`); `[0,5)` and
`[5,10)` do not overlap while `[0,5)` and `[4,10)` do. -/
theorem overlaps_iff_strict_and_symm_refl :
    (∀ a b : Ann,
      a.overlaps_with b = true ↔ a.start < b.«end» ∧ b.start < a.«end») ∧
    (∀ a b : Ann, a.overlaps_with b = b.overlaps_with a) ∧
    (∀ a : Ann, a.start < a.«end» → a.overlaps_with a = true) ∧
    (Ann.overlaps_with ⟨0, 5, []⟩ ⟨5, 10, []⟩ = false ∧
     Ann.overlaps_with ⟨0, 5, []⟩ ⟨4, 10, []⟩ = true) := by
  refine ⟨overlaps_with_iff, ?_, ?_, by decide⟩
  · intro a b
    rw [Bool.eq_iff_iff, overlaps_with_iff, overlaps_with_iff]
    tauto
  · intro a h
    rw [overlaps_with_iff]
    exact ⟨h, h⟩

/-- Witness for C1: the reflexivity conjunct applied at the concrete valid
span `[0,5)`. -/
theorem overlaps_iff_strict_and_symm_refl_witness :
    Ann.overlaps_with ⟨0, 5, []⟩ ⟨0, 5, []⟩ = true :=
  overlaps_iff_strict_and_symm_refl.2.2.1 ⟨0, 5, []⟩ (by decide)

/-- C10: containment of a valid span implies strict overlap. -/
theorem contains_implies_overlaps (a b : Ann)
    (hb : b.start < b.«end») (hc : a.contains b = true) :
    a.overlaps_with b = true := by
  simp only [Ann.contains, Bool.and_eq_true, decide_eq_true_eq,
    ge_iff_le] at hc
  rw [overlaps_with_iff]
  omega

/-- Witness for C10 at concrete spans `[1,9)` containing `[3,7)`. -/
theorem contains_implies_overlaps_witness :
    Ann.overlaps_with ⟨1, 9, []⟩ ⟨3, 7, []⟩ = true :=
  contains_implies_overlaps ⟨1, 9, []⟩ ⟨3, 7, []⟩ (by decide) (by decide)

/-- `Task.entity_count` (models.py line 177): iterates the task's annotations,
adds each `(annotation.start, annotation.end)` pair to a set, and returns the
set's size. -/
def entity_count (anns : List Ann) : Nat :=
  (anns.foldl (fun s a => insert (a.start, a.«end») s)
    (∅ : Finset (Int × Int))).card

lemma foldl_insert_span (anns : List Ann) (s : Finset (Int × Int)) :
    anns.foldl (fun s a => insert (a.start, a.«end») s) s =
      s ∪ (anns.map fun a => (a.start, a.«end»)).toFinset := by
  induction anns generalizing s with
  | nil => simp
  | cons a t ih =>
      simp [List.foldl_cons, ih, Finset.insert_union, Finset.union_insert]

/-- C3: `entity_count` equals the number of distinct `(start, end)` pairs;
two annotations sharing span `(3,7)` with different labels count as one
entity, two annotations with different spans count as two. -/
theorem entity_count_distinct_spans :
    (∀ anns : List Ann,
      entity_count anns = (anns.map fun a => (a.start, a.«end»)).toFinset.card) ∧
    entity_count [⟨3, 7, ["PERSON"]⟩, ⟨3, 7, ["LOC"]⟩] = 1 ∧
    entity_count [⟨3, 7, ["PERSON"]⟩, ⟨2, 5, ["LOC"]⟩] = 2 := by
  refine ⟨?_, by decide, by decide⟩
  intro anns
  rw [entity_count, foldl_insert_span, Finset.empty_union]

/-- Task row (models.py `class Task`): the fields the completion state
machine touches. Defaults as in the model: `is_completed = False`,
`completion_time = NULL`, `annotator_id = NULL`. Clock readings are `Nat`. -/
structure Task where
  is_completed : Bool := false
  completion_time : Option Nat := none
  annotator_id : Option Int := none
  deriving Repr, DecidableEq

/-- A freshly created Task row (field defaults). -/
def Task.new : Task := {}

/-- `Task.mark_completed` (models.py line 151): sets `is_completed = True`,
`completion_time = timezone.now()`, and `annotator_id` when the argument is
truthy (Python `if annotator_id:` — `None` and `0` are falsy). -/
def Task.mark_completed (self : Task) (now : Nat)
    (annotator_id : Option Int) : Task :=
  let t := { self with is_completed := true, completion_time := some now }
  match annotator_id with
  | some i => if i ≠ 0 then { t with annotator_id := some i } else t
  | none => t

/-- `Task.mark_incomplete` (models.py line 159). -/
def Task.mark_incomplete (self : Task) : Task :=
  { self with is_completed := false, completion_time := none }

/-- A generic REST update through `TaskSerializer` (serializers.py line 72):
`fields = "__all__"` with only `created_at`/`updated_at`/`uuid` read-only, so
`is_completed` and `completion_time` are independently writable; a payload
provides any subset of the two. -/
def Task.rest_update (self : Task) (is_completed? : Option Bool)
    (completion_time? : Option (Option Nat)) : Task :=
  { self with
    is_completed := is_completed?.getD self.is_completed
    completion_time := completion_time?.getD self.completion_time }

/-- Task states reachable from creation through the mutation operations,
including the REST update path. -/
inductive TaskReachable : Task → Prop
  | new : TaskReachable Task.new
  | mark_completed {t} (now : Nat) (aid : Option Int) :
      TaskReachable t → TaskReachable (t.mark_completed now aid)
  | mark_incomplete {t} : TaskReachable t → TaskReachable t.mark_incomplete
  | rest_update {t} (ic : Option Bool) (ct : Option (Option Nat)) :
      TaskReachable t → TaskReachable (t.rest_update ic ct)

/-- Task states reachable through creation, `mark_completed` and
`mark_incomplete` only (no generic REST update). -/
inductive TaskReachableCore : Task → Prop
  | new : TaskReachableCore Task.new
  | mark_completed {t} (now : Nat) (aid : Option Int) :
      TaskReachableCore t → TaskReachableCore (t.mark_completed now aid)
  | mark_incomplete {t} : TaskReachableCore t → TaskReachableCore t.mark_incomplete

lemma mark_completed_is_completed (t : Task) (now : Nat) (aid : Option Int) :
    (t.mark_completed now aid).is_completed = true := by
  rcases aid with _ | i
  · rfl
  · by_cases h : i ≠ 0 <;> simp [Task.mark_completed, h]

lemma mark_completed_completion_time (t : Task) (now : Nat) (aid : Option Int) :
    (t.mark_completed now aid).completion_time = some now := by
  rcases aid with _ | i
  · rfl
  · by_cases h : i ≠ 0 <;> simp [Task.mark_completed, h]

/-- C7 counterexample: a PATCH through the REST update path that sets
`is_completed = true` without supplying `completion_time` yields a reachable
state with `is_completed = true` and `completion_time = NULL`, violating the
claimed invariant. -/
theorem completion_invariant_counterexample :
    TaskReachable (Task.new.rest_update (some true) none) ∧
    (Task.new.rest_update (some true) none).is_completed = true ∧
    (Task.new.rest_update (some true) none).completion_time = none :=
  ⟨.rest_update (some true) none .new, rfl, rfl⟩

/-- C7 (amended): for every Task state reachable through task creation,
`mark_completed` and `mark_incomplete`, `completion_time` is non-null iff
`is_completed` is true; the generic REST update path is excluded because
`TaskSerializer` exposes the two fields as independently writable. -/
theorem completion_invariant_core (t : Task) (h : TaskReachableCore t) :
    t.completion_time ≠ none ↔ t.is_completed = true := by
  induction h with
  | new => simp [Task.new]
  | mark_completed now aid _ _ =>
      simp [mark_completed_is_completed, mark_completed_completion_time]
  | mark_incomplete _ _ => simp [Task.mark_incomplete]

/-- Witness for C7's amended theorem: applied at the state reached by
creating a task and marking it completed at time 5. -/
theorem completion_invariant_core_witness :
    (Task.new.mark_completed 5 none).completion_time ≠ none :=
  (completion_invariant_core (Task.new.mark_completed 5 none)
    (.mark_completed 5 none .new)).mpr rfl

/-- Project rows (models.py `class Project`), restricted to the related task
set that the completion statistics read. -/
structure Project where
  tasks : List Task

/-- `Project.task_count` (models.py line 39): `self.tasks.count()`. -/
def Project.task_count (p : Project) : Nat := p.tasks.length

/-- `Project.completed_task_count` (models.py line 44):
`self.tasks.filter(is_completed=True).count()`. -/
def Project.completed_task_count (p : Project) : Nat :=
  (p.tasks.filter fun t => t.is_completed).length

/-- `Project.completion_percentage` (models.py line 49): `0.0` when there
are no tasks, else `(completed_task_count / task_count) * 100.0`; Python
float arithmetic modelled over `ℚ` (exact at the claimed data points). -/
def Project.completion_percentage (p : Project) : ℚ :=
  if p.task_count = 0 then 0
  else ((p.completed_task_count : ℚ) / (p.task_count : ℚ)) * 100

/-- C6: `completion_percentage` is `completed/total * 100`, `0` on an empty
project, `100` when every task is completed, and `50` for 1 of 2 tasks
completed. -/
theorem completion_percentage_spec :
    (∀ p : Project, p.completion_percentage =
      if p.task_count = 0 then 0
      else ((p.completed_task_count : ℚ) / (p.task_count : ℚ)) * 100) ∧
    (∀ p : Project, p.task_count = 0 → p.completion_percentage = 0) ∧
    (∀ p : Project, p.tasks ≠ [] → (∀ t ∈ p.tasks, t.is_completed = true) →
      p.completion_percentage = 100) ∧
    Project.completion_percentage ⟨[{ is_completed := true }, Task.new]⟩ = 50 := by
  refine ⟨fun _ => rfl, fun p h => by simp [Project.completion_percentage, h], ?_,
    by norm_num [Project.completion_percentage, Project.completed_task_count,
      Project.task_count, Task.new, List.filter]⟩
  intro p hne hall
  have hfilter : p.tasks.filter (fun t => t.is_completed) = p.tasks :=
    List.filter_eq_self.mpr (by intro t ht; simpa using hall t ht)
  have hcc : p.completed_task_count = p.task_count := by
    rw [Project.completed_task_count, hfilter]; rfl
  have hpos : (p.task_count : ℚ) ≠ 0 := by
    have : p.task_count ≠ 0 := by
      simpa [Project.task_count, List.length_eq_zero] using hne
    exact_mod_cast this
  rw [Project.completion_percentage, if_neg (by exact_mod_cast fun h => hpos (by exact_mod_cast h)), hcc,
    div_self hpos, one_mul]

/-- Witness for C6: the all-completed conjunct applied to a concrete
one-task project, and the empty conjunct at the empty project. -/
theorem completion_percentage_spec_witness :
    Project.completion_percentage ⟨[{ is_completed := true }]⟩ = 100 :=
  completion_percentage_spec.2.2.1 ⟨[{ is_completed := true }]⟩
    (by decide) (by decide)

/-- ASCII whitespace as stripped by Python around an `int(str, base)` parse
(space, tab, newline, carriage return, vertical tab, form feed); character
classes are defined by code point. Non-ASCII Unicode spaces/digits, which
CPython also normalizes, are outside this model. -/
def isPySpace (c : Char) : Bool :=
  c.toNat = 32 || c.toNat = 9 || c.toNat = 10 || c.toNat = 13 ||
    c.toNat = 11 || c.toNat = 12

/-- Hexadecimal digit: `0-9`, `a-f`, `A-F` (by code point). -/
def isHexDigit (c : Char) : Bool :=
  (48 ≤ c.toNat && c.toNat ≤ 57) || (97 ≤ c.toNat && c.toNat ≤ 102) ||
    (65 ≤ c.toNat && c.toNat ≤ 70)

/-- Python `str.strip()` on a character list: drop leading and trailing
whitespace. -/
def pyStripList (l : List Char) : List Char :=
  ((l.dropWhile isPySpace).reverse.dropWhile isPySpace).reverse

/-- After the first digit, Python's base-16 digit run allows single
underscores strictly between digits. -/
def hexRunTail : List Char → Bool
  | [] => true
  | [c] => isHexDigit c
  | c :: d :: ds =>
      if c == '_' then isHexDigit d && hexRunTail ds
      else isHexDigit c && hexRunTail (d :: ds)

/-- A nonempty digit run: starts with a digit, then `hexRunTail`. -/
def hexRun : List Char → Bool
  | [] => false
  | c :: cs => isHexDigit c && hexRunTail cs

/-- Optional sign accepted by Python's integer parse. -/
def dropSign (l : List Char) : List Char :=
  match l with
  | c :: rest => if c == '+' || c == '-' then rest else l
  | [] => []

/-- Optional `0x`/`0X` prefix for base 16, optionally followed by a single
underscore (CPython accepts `0x_1a`). -/
def dropHexPrefix (l : List Char) : List Char :=
  match l with
  | c0 :: c1 :: rest =>
      if c0 == '0' && (c1 == 'x' || c1 == 'X') then
        if rest.head? == some '_' then rest.tail else rest
      else l
  | _ => l

/-- Success predicate of Python `int(s, 16)` (CPython `long_from_string`):
optional surrounding whitespace, optional sign, optional `0x`/`0X` prefix,
then a nonempty run of hex digits with single underscores between digits. -/
def pyIntHexValid (s : String) : Bool :=
  hexRun (dropHexPrefix (dropSign (pyStripList s.data)))

/-- `Label.validate_color` (models.py line 529): `False` unless
`color.startswith("#")` and `len(color) == 7`; then `True` iff
`int(color[1:], 16)` does not raise `ValueError`.
`LabelSerializer.validate_background` (serializers.py line 32) applies the
same predicate, raising `ValidationError` on the same inputs. -/
def validate_color (color : String) : Bool :=
  if !(color.data.head? == some '#') || color.data.length != 7 then false
  else pyIntHexValid (String.mk (color.data.drop 1))

/-- The color format stated by the spec: the character `#` followed by
exactly 6 hexadecimal digits. -/
def specHexColor (color : String) : Bool :=
  match color.data with
  | c :: rest => c == '#' && rest.length == 6 && rest.all isHexDigit
  | [] => false

/-- C9 counterexample: `validate_color` accepts `"#+12345"`, which is not
`#` followed by 6 hexadecimal digits (Python `int("+12345", 16)` parses the
sign). -/
theorem validate_color_counterexample :
    validate_color "#+12345" = true ∧ specHexColor "#+12345" = false := by
  decide

lemma hex_not_space (c : Char) (h : isHexDigit c = true) : isPySpace c = false := by
  simp only [isHexDigit, Bool.or_eq_true, Bool.and_eq_true, decide_eq_true_eq] at h
  simp only [isPySpace, Bool.or_eq_false_iff, decide_eq_false_iff_not]
  omega

lemma dropWhile_pySpace_of_all_hex (l : List Char)
    (h : ∀ c ∈ l, isHexDigit c = true) : l.dropWhile isPySpace = l := by
  cases l with
  | nil => rfl
  | cons c cs =>
      rw [List.dropWhile_cons, hex_not_space c (h c (by simp))]
      simp

lemma pyStripList_of_all_hex (l : List Char)
    (h : ∀ c ∈ l, isHexDigit c = true) : pyStripList l = l := by
  rw [pyStripList, dropWhile_pySpace_of_all_hex l h,
    dropWhile_pySpace_of_all_hex l.reverse (by simpa using h), List.reverse_reverse]

lemma not_underscore_of_hex (c : Char) (hc : isHexDigit c = true) :
    (c == '_') = false := by
  cases h' : (c == '_') with
  | false => rfl
  | true =>
      rw [beq_iff_eq] at h'
      subst h'
      exact absurd hc (by decide)

lemma hexRunTail_of_all_hex (l : List Char)
    (h : ∀ c ∈ l, isHexDigit c = true) : hexRunTail l = true := by
  induction l with
  | nil => rfl
  | cons c cs ih =>
      have hc : isHexDigit c = true := h c (by simp)
      cases cs with
      | nil => rw [hexRunTail]; exact hc
      | cons d ds =>
          rw [hexRunTail, if_neg (by simp [not_underscore_of_hex c hc]),
            hc, ih fun e he => h e (by simp [he])]
          rfl

lemma hexRun_of_all_hex (l : List Char) (hne : l ≠ [])
    (h : ∀ c ∈ l, isHexDigit c = true) : hexRun l = true := by
  cases l with
  | nil => exact absurd rfl hne
  | cons c cs =>
      rw [hexRun, h c (by simp), hexRunTail_of_all_hex cs fun d hd => h d (by simp [hd])]
      rfl

/-- C9 (amended): `validate_color` accepts `c` iff `c` starts with `#`, has
length 7, and the 6 remaining characters are accepted by Python's base-16
integer parser — which admits every run of 6 hex digits, but also an
optional sign, a `0x`/`0X` prefix, underscores between digits and
surrounding whitespace. So every `#` + 6-hex-digit string is accepted, and
strictly more, e.g. `"#0x1234"`. -/
theorem validate_color_amended :
    (∀ c : String, validate_color c = true ↔
      (c.data.head? = some '#' ∧ c.data.length = 7 ∧
        pyIntHexValid (String.mk (c.data.drop 1)) = true)) ∧
    (∀ c : String, specHexColor c = true → validate_color c = true) ∧
    validate_color "#0x1234" = true := by
  refine ⟨?_, ?_, by decide⟩
  · intro c
    rw [validate_color]
    by_cases h1 : c.data.head? = some '#'
    · by_cases h2 : c.data.length = 7
      · simp [h1, h2]
      · simp [h1, h2]
    · simp [h1, fun h => h1 h]
  · intro c hc
    rw [specHexColor] at hc
    cases hd : c.data with
    | nil => rw [hd] at hc; exact absurd hc (by decide)
    | cons ch rest =>
        rw [hd] at hc
        simp only [Bool.and_eq_true, beq_iff_eq, List.all_eq_true] at hc
        obtain ⟨⟨hch, hlen⟩, hhex⟩ := hc
        subst hch
        have hne : rest ≠ [] := by
          intro h
          rw [h] at hlen
          exact absurd hlen (by decide)
        rw [validate_color, hd]
        have hlen7 : (('#' :: rest).length != 7) = false := by
          simp [hlen]
        simp only [List.head?_cons, beq_self_eq_true, Bool.not_true, hlen7,
          Bool.or_false, Bool.false_eq_true, if_false, List.drop_one,
          List.tail_cons]
        rw [pyIntHexValid, pyStripList_of_all_hex rest hhex]
        have hsign : dropSign rest = rest := by
          cases rest with
          | nil => rfl
          | cons r rs =>
              have hr := hhex r (by simp)
              rw [dropSign]
              have hns : (r == '+' || r == '-') = false := by
                cases h' : (r == '+' || r == '-') with
                | false => rfl
                | true =>
                    simp only [Bool.or_eq_true, beq_iff_eq] at h'
                    rcases h' with h' | h' <;>
                      (subst h'; exact absurd hr (by decide))
              rw [hns]
              simp
        rw [hsign]
        have hpre : dropHexPrefix rest = rest := by
          match rest with
          | [] => rfl
          | [c0] => rfl
          | c0 :: c1 :: rs =>
              have h1 := hhex c1 (by simp)
              rw [dropHexPrefix]
              have hnp : (c0 == '0' && (c1 == 'x' || c1 == 'X')) = false := by
                cases h' : (c1 == 'x' || c1 == 'X') with
                | false => simp [h']
                | true =>
                    simp only [Bool.or_eq_true, beq_iff_eq] at h'
                    rcases h' with h' | h' <;>
                      (subst h'; exact absurd h1 (by decide))
              rw [hnp]
              simp
        rw [hpre]
        exact hexRun_of_all_hex rest hne hhex

/-- Witness for C9's amended theorem: the inclusion conjunct applied at the
ordinary hex color `"#00FF33"`. -/
theorem validate_color_amended_witness :
    validate_color "#00FF33" = true :=
  validate_color_amended.2.1 "#00FF33" (by decide)

/-- Label row (models.py `class Label`): the fields the deletion guard
reads — the label value and the owning project id (`none` = global label). -/
structure Label where
  value : String
  project : Option Nat
  deriving Repr, DecidableEq

/-- A task row as seen by the usage scan: its project id and its
annotations. -/
structure DbTask where
  project : Nat
  annotations : List Ann
  deriving Repr, DecidableEq

/-- The backing store contents the label endpoints read. -/
structure Db where
  tasks : List DbTask
  labels : List Label
  deriving Repr, DecidableEq

/-- The annotations iterated by `Label.get_usage_count` (models.py line
565): for a project-specific label, the annotations of that project's
tasks; for a global label, the annotations of every task. -/
def scanned_annotations (l : Label) (db : Db) : List Ann :=
  match l.project with
  | some pid => ((db.tasks.filter fun t => t.project == pid).map
      (fun t => t.annotations)).flatten
  | none => (db.tasks.map fun t => t.annotations).flatten

/-- `Label.get_usage_count` (models.py line 565): iterate the tasks and
their annotations, `count += 1` whenever `self.value in annotation.labels`. -/
def get_usage_count (l : Label) (db : Db) : Nat :=
  (scanned_annotations l db).countP fun a => decide (l.value ∈ a.labels)

/-- `Label.can_be_deleted` (models.py line 583): usage count is zero. -/
def can_be_deleted (l : Label) (db : Db) : Bool :=
  get_usage_count l db == 0

/-- `delete_tag` (views.py line 759): reject with a 400 "Cannot delete
label that is in use" error when `can_be_deleted` is false, otherwise
delete the Label row. -/
def delete_tag (l : Label) (db : Db) : Except String Db :=
  if !(can_be_deleted l db) then .error "Cannot delete label that is in use"
  else .ok { db with labels := db.labels.erase l }

/-- `Annotation.remove_label` (models.py line 376): remove the first
occurrence of `label` from the annotation's label list when present. -/
def Ann.remove_label (a : Ann) (label : String) : Ann :=
  if label ∈ a.labels then { a with labels := a.labels.erase label } else a

/-- C8: `delete_tag` rejects with the label-in-use error iff some annotation
in the scanned scope references the label's value; in the concrete scenario,
an annotation referencing "PERSON" blocks deleting the "PERSON" label, and
after `remove_label` removes that reference the deletion succeeds. -/
theorem delete_tag_guard :
    (∀ (db : Db) (l : Label),
      delete_tag l db = .error "Cannot delete label that is in use" ↔
        ∃ a ∈ scanned_annotations l db, l.value ∈ a.labels) ∧
    delete_tag ⟨"PERSON", some 1⟩
        ⟨[⟨1, [⟨0, 4, ["PERSON"]⟩]⟩], [⟨"PERSON", some 1⟩]⟩ =
      .error "Cannot delete label that is in use" ∧
    delete_tag ⟨"PERSON", some 1⟩
        ⟨[⟨1, [Ann.remove_label ⟨0, 4, ["PERSON"]⟩ "PERSON"]⟩],
          [⟨"PERSON", some 1⟩]⟩ =
      .ok ⟨[⟨1, [⟨0, 4, []⟩]⟩], []⟩ := by
  refine ⟨?_, rfl, rfl⟩
  intro db l
  rw [delete_tag]
  by_cases h : can_be_deleted l db
  · rw [h]
    simp only [Bool.not_true, Bool.false_eq_true, if_false]
    constructor
    · intro hcontra
      exact absurd hcontra (by simp)
    · intro ⟨a, ha, hv⟩
      rw [can_be_deleted, beq_iff_eq, get_usage_count, List.countP_eq_zero] at h
      exact absurd (by simp [hv]) (h a ha)
  · rw [Bool.not_eq_true] at h
    rw [h]
    simp only [Bool.not_false, if_true, true_iff]
    rw [can_be_deleted] at h
    have hpos : 0 < get_usage_count l db := by
      rcases Nat.eq_zero_or_pos (get_usage_count l db) with h0 | h0
      · rw [h0] at h; simp at h
      · exact h0
    rw [get_usage_count, List.countP_pos_iff] at hpos
    obtain ⟨a, ha, hv⟩ := hpos
    exact ⟨a, ha, by simpa using hv⟩

/-- Witness for C8: the iff applied at the concrete in-use database,
forward direction discharged by evaluation. -/
theorem delete_tag_guard_witness :
    ∃ a ∈ scanned_annotations ⟨"PERSON", some 1⟩
        ⟨[⟨1, [⟨0, 4, ["PERSON"]⟩]⟩], [⟨"PERSON", some 1⟩]⟩,
      "PERSON" ∈ a.labels :=
  (delete_tag_guard.1 ⟨[⟨1, [⟨0, 4, ["PERSON"]⟩]⟩], [⟨"PERSON", some 1⟩]⟩
    ⟨"PERSON", some 1⟩).mp rfl

/-- Python `str.split()` with no argument: split on runs of whitespace,
dropping empty tokens (`acc` accumulates the current token reversed). -/
def pySplitAux : List Char → List Char → List String
  | [], [] => []
  | [], acc => [String.mk acc.reverse]
  | c :: cs, acc =>
      if isPySpace c then
        match acc with
        | [] => pySplitAux cs []
        | _ :: _ => String.mk acc.reverse :: pySplitAux cs []
      else pySplitAux cs (c :: acc)

/-- Python `text.split()`. -/
def pySplit (s : String) : List String := pySplitAux s.data []

/-- Python `text.find(sub, start)` for the non-negative `start` values the
export loop passes: the smallest index `i ≥ start` at which `sub` occurs in
`text`, else `-1`. -/
def pyFind (text sub : String) (start : Int) : Int :=
  match ((List.range (text.data.length + 1)).filter fun (i : Nat) =>
      decide (start ≤ (i : Int)) && sub.data.isPrefixOf (text.data.drop i)).head? with
  | some i => (i : Int)
  | none => -1

/-- The token/annotation intersection test of `export_conll_format`
(models.py line 245): `ann.start <= token_start < ann.end or
ann.start < token_end <= ann.end`. -/
def token_matches (ann : Ann) (token_start token_end : Int) : Bool :=
  (decide (ann.start ≤ token_start) && decide (token_start < ann.«end»)) ||
    (decide (ann.start < token_end) && decide (token_end ≤ ann.«end»))

/-- The inner `for ann in self.annotations.all()` loop with its `break`:
the first annotation whose span intersects the token wins. -/
def first_matching_ann (token_start token_end : Int) :
    List Ann → Option Ann
  | [] => none
  | a :: rest =>
      if token_matches a token_start token_end then some a
      else first_matching_ann token_start token_end rest

/-- The B-I-O tag assigned to one token (models.py lines 249–263): `O` when
no annotation intersects; otherwise `B-`/`I-` (by whether the token starts
exactly at the annotation start) followed by the annotation's first label,
or `MISC` when it has none. -/
def bio_tag (token_start token_end : Int) (anns : List Ann) : String :=
  match first_matching_ann token_start token_end anns with
  | none => "O"
  | some ann =>
      if token_start = ann.start then
        match ann.labels with
        | [] => "B-MISC"
        | l :: _ => "B-" ++ l
      else
        match ann.labels with
        | [] => "I-MISC"
        | l :: _ => "I-" ++ l

/-- The offset-scanning loop of `export_conll_format` (models.py lines
238–241, 268): `token_start = text.find(token, current_pos)`,
`token_end = token_start + len(token)`, then `current_pos = token_end`. -/
def token_spans (text : String) : List String → Int → List (String × Int × Int)
  | [], _ => []
  | tok :: rest, pos =>
      let ts := pyFind text tok pos
      let te := ts + (tok.length : Int)
      (tok, ts, te) :: token_spans text rest te

/-- `Task.export_conll_format` (models.py line 233): whitespace-tokenize
the text, locate each token by forward search, tag it by the first
intersecting annotation, and join the `token<TAB>label` lines with
newlines. -/
def export_conll_format (text : String) (anns : List Ann) : String :=
  let tokens := pySplit text
  let spans := token_spans text tokens 0
  let conll_lines := spans.map fun s => s.1 ++ "\t" ++ bio_tag s.2.1 s.2.2 anns
  String.intercalate "\n" conll_lines

/-- C2: a token whose first intersecting annotation is `a` is tagged
`B-`/`I-` (by whether its start equals `a.start`) followed by `a`'s first
label (`MISC` when `a.labels` is empty); and the task text
"John lives in Seoul" with annotations `[0,4) PERSON` and `[14,19) LOC`
exports exactly the four claimed tab-separated lines. -/
theorem export_conll_spec :
    (∀ (ts te : Int) (anns : List Ann) (a : Ann),
      first_matching_ann ts te anns = some a →
      bio_tag ts te anns =
        (if ts = a.start then "B-" else "I-") ++
          (match a.labels with | [] => "MISC" | l :: _ => l)) ∧
    export_conll_format "John lives in Seoul"
        [⟨0, 4, ["PERSON"]⟩, ⟨14, 19, ["LOC"]⟩] =
      "John\tB-PERSON\nlives\tO\nin\tO\nSeoul\tB-LOC" := by
  constructor
  · intro ts te anns a h
    rw [bio_tag, h]
    by_cases hts : ts = a.start <;> cases hl : a.labels <;> simp [hts, hl]
  · decide

/-- Witness for C2: the tagging conjunct applied at the concrete token
`[0,4)` against the PERSON annotation. -/
theorem export_conll_spec_witness :
    bio_tag 0 4 [⟨0, 4, ["PERSON"]⟩] =
      (if (0 : Int) = (0 : Int) then "B-" else "I-") ++ "PERSON" :=
  export_conll_spec.1 0 4 [⟨0, 4, ["PERSON"]⟩] ⟨0, 4, ["PERSON"]⟩ rfl

/-- Python `content.strip()`. -/
def pyStrip (s : String) : String := String.mk (pyStripList s.data)

/-- Python `s.split('\n')`: split at every newline, keeping empty fields. -/
def splitNewlineAux : List Char → List Char → List String
  | [], acc => [String.mk acc.reverse]
  | c :: cs, acc =>
      if c == '\n' then String.mk acc.reverse :: splitNewlineAux cs []
      else splitNewlineAux cs (c :: acc)

/-- Python `s.split('\n')`. -/
def pySplitNewline (s : String) : List String := splitNewlineAux s.data []

/-- The `.txt` branch of `FileUploadViewSet._process_file_content`
(views.py lines 300–313): `lines = content.strip().split('\n')`, then
`for line_num, line in enumerate(lines, 1)` a Task is created with
`text = line.strip()` and `line_number = line_num` whenever the stripped
line is non-empty. Returns the created `(text, line_number)` pairs in
creation order. -/
def ingest_txt (content : String) : List (String × Nat) :=
  let lines := pySplitNewline (pyStrip content)
  ((lines.enumFrom 1).filter fun p => !(pyStrip p.2).isEmpty).map
    fun p => (pyStrip p.2, p.1)

/-- The claim's description of txt ingestion: one Task per line of the
ORIGINAL file whose stripped text is non-blank, with `line_number` the
line's 1-based position in the original file. -/
def txt_tasks_claim (content : String) : List (String × Nat) :=
  (((pySplitNewline content).enumFrom 1).filter
      fun p => !(pyStrip p.2).isEmpty).map
    fun p => (pyStrip p.2, p.1)

/-- C5 counterexample: for the 3-line file `"\na\nb"` (blank first line)
the code strips the leading newline before numbering, so the two Tasks get
line numbers 1 and 2, while the non-blank lines sit at original positions
2 and 3. -/
theorem ingest_txt_counterexample :
    ingest_txt "\na\nb" = [("a", 1), ("b", 2)] ∧
    txt_tasks_claim "\na\nb" = [("a", 2), ("b", 3)] ∧
    ([("a", 1), ("b", 2)] : List (String × Nat)) ≠ [("a", 2), ("b", 3)] := by
  refine ⟨by decide, by decide, by decide⟩

lemma dropWhile_pySpace_eq_self (l : List Char)
    (h : ∀ c ∈ l.take 1, isPySpace c = false) : l.dropWhile isPySpace = l := by
  cases l with
  | nil => rfl
  | cons c cs =>
      rw [List.dropWhile_cons, h c (by simp)]
      simp

lemma pyStripList_eq_self (l : List Char)
    (h1 : ∀ c ∈ l.take 1, isPySpace c = false)
    (h2 : ∀ c ∈ l.reverse.take 1, isPySpace c = false) : pyStripList l = l := by
  rw [pyStripList, dropWhile_pySpace_eq_self l h1,
    dropWhile_pySpace_eq_self l.reverse h2, List.reverse_reverse]

lemma pyStrip_eq_self (s : String)
    (h1 : ∀ c ∈ s.data.take 1, isPySpace c = false)
    (h2 : ∀ c ∈ s.data.reverse.take 1, isPySpace c = false) :
    pyStrip s = s := by
  cases s with
  | mk data => rw [pyStrip, pyStripList_eq_self data h1 h2]

/-- C5 (amended): `line_number` is the line's 1-based position within
`content.strip().split('\n')`; when the content starts and ends with
non-whitespace this equals the original 1-based file position, and the
3-line/one-blank-line example holds when the blank line is interior, e.g.
`"a\n\nb"` yields exactly the tasks `("a",1)` and `("b",3)`. -/
theorem ingest_txt_amended :
    (∀ content : String,
      (∀ c ∈ content.data.take 1, isPySpace c = false) →
      (∀ c ∈ content.data.reverse.take 1, isPySpace c = false) →
      ingest_txt content = txt_tasks_claim content) ∧
    ingest_txt "a\n\nb" = [("a", 1), ("b", 3)] := by
  refine ⟨?_, by decide⟩
  intro content h1 h2
  rw [ingest_txt, txt_tasks_claim, pyStrip_eq_self content h1 h2]

/-- Witness for C5's amended theorem: applied at the whitespace-free
3-line content `"a\n\nb"`. -/
theorem ingest_txt_amended_witness :
    ingest_txt "a\n\nb" = txt_tasks_claim "a\n\nb" :=
  ingest_txt_amended.1 "a\n\nb" (by decide) (by decide)

/-- Processing status of an `UploadedFile`. Modelled from the spec: the
`UploadedFile` model class (imported by views.py from `.models`) is not
among the provided sources; spec §3 gives `processing status ∈
{processing, completed, failed}, error message on failure, resulting task
count`. -/
inductive FileStatus
  | processing
  | completed (task_count : Nat)
  | failed (message : String)
  deriving Repr, DecidableEq

/-- What the database holds after an upload request: the committed Task
rows and the UploadedFile's status field. -/
structure UploadState where
  tasks : List (String × Nat)
  file_status : FileStatus
  deriving Repr, DecidableEq

/-- The sequence of `Task.objects.create` calls of the txt branch, run
against a store that raises on call number `failAt` (0-based). Each
successful create commits immediately: Django runs in autocommit mode here
— neither `transaction.atomic` nor `ATOMIC_REQUESTS` appears anywhere in
views.py or the settings modules. Returns the committed rows and the
raised error, if any. -/
def create_tasks_txt (rows : List (String × Nat)) (failAt : Option Nat)
    (k : Nat) : List (String × Nat) × Option String :=
  match rows with
  | [] => ([], none)
  | t :: rest =>
      if failAt = some k then ([], some "store write failure")
      else
        let r := create_tasks_txt rest failAt (k + 1)
        (t :: r.1, r.2)

/-- `FileUploadViewSet.create` (views.py lines 252–276) on a txt upload:
on success `uploaded_file_record.mark_completed(len(tasks_created))`; when
`_process_file_content` raises, `uploaded_file_record.mark_failed(str(e))`
— nothing rolls back the Task rows already committed. `mark_completed` /
`mark_failed` of the missing `UploadedFile` model are modelled from spec
§3/§5 as setting the status field. -/
def file_upload_create (content : String) (failAt : Option Nat) : UploadState :=
  let r := create_tasks_txt (ingest_txt content) failAt 0
  match r.2 with
  | none => ⟨r.1, .completed r.1.length⟩
  | some msg => ⟨r.1, .failed msg⟩

/-- C4: on the 2-line file `"a\nb"` with the store raising on the second
`Task.objects.create`, the UploadedFile is marked failed with the captured
message, yet the first Task row stays committed: a partial task set (neither
all rows nor none) is visible after the failure, so ingestion is not atomic. -/
theorem ingestion_not_atomic :
    file_upload_create "a\nb" (some 1) =
      ⟨[("a", 1)], .failed "store write failure"⟩ ∧
    (file_upload_create "a\nb" (some 1)).tasks ≠ [] ∧
    (file_upload_create "a\nb" (some 1)).tasks ≠
      (file_upload_create "a\nb" none).tasks := by
  refine ⟨by decide, by decide, by decide⟩

end NER
